import Mathlib

/-!
Verification of the CropCart repository: a shallow embedding of the
blog-post admin handler (Netlify function with ownership tracking), the
legacy blog-post function, the client-side farm CRUD helpers, and the
Express endpoints for produce listing, search, waitlist signup and admin
CSV export.  Strings are modelled as lists of characters; the remote
`blog_posts` table and the JSON files are modelled as in-memory lists
threaded through each handler, together with a counter of storage
accesses performed.
-/

/-- Strings from the JavaScript source, modelled as lists of characters. -/
abbrev Str := List Char

/-- JavaScript truthiness of an optional string: absent, null and the
empty string are falsy. -/
def truthyStr (o : Option Str) : Bool :=
  match o with
  | none => false
  | some s => !s.isEmpty

/-- Lowercasing of one character, the ASCII fragment of the JavaScript
`toLowerCase`. -/
def lowerChar (c : Char) : Char :=
  if 65 ≤ c.toNat && c.toNat ≤ 90 then Char.ofNat (c.toNat + 32) else c

/-- Lowercasing of a string (`s.toLowerCase()`). -/
def lowerStr (s : Str) : Str := s.map lowerChar

/-- Does the pattern (first argument) start the string (second argument)? -/
def startsWithL : Str → Str → Bool
  | [], _ => true
  | _ :: _, [] => false
  | p :: ps, c :: cs => p == c && startsWithL ps cs

/-- JavaScript `hay.includes(pat)`: does `pat` occur contiguously in `hay`? -/
def containsSub (hay pat : Str) : Bool :=
  match hay with
  | [] => pat.isEmpty
  | c :: t => startsWithL pat (c :: t) || containsSub t pat

/-- Case-insensitive containment, as the source computes it:
`hay.toLowerCase().includes(pat.toLowerCase())`. -/
def ciContains (hay pat : Str) : Bool :=
  containsSub (lowerStr hay) (lowerStr pat)

/-- Remove the first occurrence of `pat` from `s`, as the JavaScript
`s.replace(pat, '')` does on a plain string pattern. -/
def removeFirst (pat : Str) : Str → Str
  | [] => []
  | c :: rest =>
    if startsWithL pat (c :: rest) then (c :: rest).drop pat.length
    else c :: removeFirst pat rest

/-- One hexadecimal digit, either case. -/
def isHexDigit (c : Char) : Bool :=
  (48 ≤ c.toNat && c.toNat ≤ 57) ||
  (97 ≤ c.toNat && c.toNat ≤ 102) ||
  (65 ≤ c.toNat && c.toNat ≤ 70)

/-- Consume exactly `n` hexadecimal digits, returning the rest of the
string, or `none` when a non-hex character is hit. -/
def hexRun : Nat → Str → Option Str
  | 0, rest => some rest
  | _ + 1, [] => none
  | n + 1, c :: rest => if isHexDigit c then hexRun n rest else none

/-- Is the version nibble of the variant group one of `8 9 a b A B`? -/
def isVariantChar (c : Char) : Bool :=
  c == '8' || c == '9' || c == 'a' || c == 'b' || c == 'A' || c == 'B'

/-- The UUID v4 shape test of the source, the anchored case-insensitive
regular expression
`[0-9a-f]{8}-[0-9a-f]{4}-4[0-9a-f]{3}-[89ab][0-9a-f]{3}-[0-9a-f]{12}`. -/
def isValidUUID (s : Str) : Bool :=
  match hexRun 8 s with
  | some ('-' :: r1) =>
    match hexRun 4 r1 with
    | some ('-' :: '4' :: r2) =>
      match hexRun 3 r2 with
      | some ('-' :: d :: r3) =>
        if isVariantChar d then
          match hexRun 3 r3 with
          | some ('-' :: r4) =>
            match hexRun 12 r4 with
            | some [] => true
            | _ => false
          | _ => false
        else false
      | _ => false
    | _ => false
  | _ => false

/-- Admin authorization of the ownership-tracking blog handler: the
Authorization header must be present and, after deleting the first
`Bearer ` occurrence, equal the configured admin API key; a missing or
empty key rejects everything. -/
def verifyAdminAuth (adminKey : Option Str) (authHeader : Option Str) : Bool :=
  match authHeader with
  | none => false
  | some h =>
    if h.isEmpty then false
    else
      match adminKey with
      | none => false
      | some k =>
        if k.isEmpty then false
        else removeFirst ("Bearer ".toList) h == k

/-- A row of the `blog_posts` table. -/
structure BlogPost where
  id : Str
  title : Str
  category : Str
  content : Str
  read_time : Option Str
  owner_id : Option Str
  created_at : Str
  updated_at : Option Str
deriving DecidableEq, Repr

/-- Body of a PUT request to the admin blog handler.  `read_time` is
doubly optional because the source distinguishes an absent field from a
present null. -/
structure PutBody where
  id : Option Str
  title : Option Str
  category : Option Str
  content : Option Str
  read_time : Option (Option Str)
  owner_id : Option Str
deriving DecidableEq, Repr

/-- JavaScript `x || null` on an optional string field. -/
def orNull (o : Option Str) : Option Str :=
  match o with
  | none => none
  | some s => if s.isEmpty then none else some s

/-- The update payload applied by the PATCH call of the PUT branch:
truthy `title`, `category`, `content` are taken from the body, a present
`read_time` (even null) is taken from the body, and `updated_at` is
always overwritten with the current time. -/
def applyUpdate (p : BlogPost) (b : PutBody) (now : Str) : BlogPost :=
  { p with
    title := match b.title with
             | some t => if t.isEmpty then p.title else t
             | none => p.title
    category := match b.category with
                | some c => if c.isEmpty then p.category else c
                | none => p.category
    content := match b.content with
               | some c => if c.isEmpty then p.content else c
               | none => p.content
    read_time := match b.read_time with
                 | some rt => rt
                 | none => p.read_time
    updated_at := some now }

/-- The PUT branch of the admin blog handler, after authentication.
`checkOk` tells whether the ownership-lookup fetch returns an OK
response; on a non-OK response the source silently skips the check.
Returns the HTTP status, the table after the request, and the number of
storage accesses performed. -/
def putStep (b : PutBody) (checkOk : Bool) (now : Str) (store : List BlogPost) :
    Nat × List BlogPost × Nat :=
  if !truthyStr b.id then (400, store, 0)
  else
    let id := b.id.getD []
    if !isValidUUID id then (400, store, 0)
    else
      let checkAcc := if truthyStr b.owner_id then 1 else 0
      let deny :=
        if truthyStr b.owner_id && checkOk then
          match store.filter (fun p => p.id == id) with
          | [] => false
          | p :: _ =>
            match p.owner_id with
            | none => false
            | some o => !o.isEmpty && !(o == b.owner_id.getD [])
        else false
      if deny then (403, store, checkAcc)
      else (200, store.map (fun p => if p.id == id then applyUpdate p b now else p),
            checkAcc + 1)

/-- The DELETE branch of the admin blog handler, after authentication. -/
def delStep (idO owner : Option Str) (checkOk : Bool) (store : List BlogPost) :
    Nat × List BlogPost × Nat :=
  if !truthyStr idO then (400, store, 0)
  else
    let id := idO.getD []
    if !isValidUUID id then (400, store, 0)
    else
      let checkAcc := if truthyStr owner then 1 else 0
      let deny :=
        if truthyStr owner && checkOk then
          match store.filter (fun p => p.id == id) with
          | [] => false
          | p :: _ =>
            match p.owner_id with
            | none => false
            | some o => !o.isEmpty && !(o == owner.getD [])
        else false
      if deny then (403, store, checkAcc)
      else (200, store.filter (fun p => !(p.id == id)), checkAcc + 1)

/-- The POST branch of the admin blog handler, after authentication.
`freshId` stands for the generated UUID and `now` for the timestamp. -/
def postStep (t c ct rt ow : Option Str) (freshId now : Str)
    (store : List BlogPost) : Nat × List BlogPost × Nat :=
  if !(truthyStr t && truthyStr c && truthyStr ct) then (400, store, 0)
  else (201,
        store ++ [{ id := freshId, title := t.getD [], category := c.getD [],
                    content := ct.getD [], read_time := orNull rt,
                    owner_id := orNull ow, created_at := now,
                    updated_at := some now }],
        1)

/-- The GET branch of the admin blog handler: a truthy `id` query
parameter is validated and then fetched; an absent or empty parameter
lists all posts. -/
def getStep (qid : Option Str) (store : List BlogPost) :
    Nat × List BlogPost × Nat :=
  if truthyStr qid then
    if !isValidUUID (qid.getD []) then (400, store, 0)
    else (200, store, 1)
  else (200, store, 1)

/-- A request to the admin blog handler. -/
inductive AdminReq where
  | options : AdminReq
  | post (title category content read_time owner : Option Str) : AdminReq
  | put (body : PutBody) : AdminReq
  | delete (id owner : Option Str) : AdminReq
  | get (queryId : Option Str) : AdminReq
  | other : AdminReq
deriving DecidableEq, Repr

/-- Does the request use a mutating HTTP method (POST, PUT or DELETE)? -/
def isMutating : AdminReq → Bool
  | .post _ _ _ _ _ => true
  | .put _ => true
  | .delete _ _ => true
  | _ => false

/-- The admin blog handler with ownership tracking: OPTIONS short
circuit, environment check, admin authentication for mutating methods,
then the method branch.  Returns status, table and storage accesses. -/
def blogAdminHandler (configured : Bool) (adminKey authHeader : Option Str)
    (checkOk : Bool) (freshId now : Str) (req : AdminReq)
    (store : List BlogPost) : Nat × List BlogPost × Nat :=
  match req with
  | .options => (200, store, 0)
  | .post t c ct rt ow =>
    if !configured then (500, store, 0)
    else if !verifyAdminAuth adminKey authHeader then (401, store, 0)
    else postStep t c ct rt ow freshId now store
  | .put b =>
    if !configured then (500, store, 0)
    else if !verifyAdminAuth adminKey authHeader then (401, store, 0)
    else putStep b checkOk now store
  | .delete idO ow =>
    if !configured then (500, store, 0)
    else if !verifyAdminAuth adminKey authHeader then (401, store, 0)
    else delStep idO ow checkOk store
  | .get qid =>
    if !configured then (500, store, 0)
    else getStep qid store
  | .other =>
    if !configured then (500, store, 0)
    else (405, store, 0)

/-- A request to the legacy Netlify blog-post function, which supports
only OPTIONS, POST and DELETE and performs no authentication. -/
inductive LegacyReq where
  | options : LegacyReq
  | post (title category content read_time : Option Str) : LegacyReq
  | delete (id : Option Str) : LegacyReq
  | other : LegacyReq
deriving DecidableEq, Repr

/-- The legacy Netlify blog-post function: no bearer-token check, no
UUID validation, POST inserts a row (the table generates timestamps and
ids; `freshId` and `now` stand for them), DELETE removes every row with
the given id. -/
def blogPostLegacy (configured : Bool) (freshId now : Str) (req : LegacyReq)
    (store : List BlogPost) : Nat × List BlogPost × Nat :=
  match req with
  | .options => (200, store, 0)
  | .post t c ct rt =>
    if !configured then (500, store, 0)
    else if !(truthyStr t && truthyStr c && truthyStr ct) then (400, store, 0)
    else (200,
          store ++ [{ id := freshId, title := t.getD [], category := c.getD [],
                      content := ct.getD [], read_time := orNull rt,
                      owner_id := none, created_at := now, updated_at := none }],
          1)
  | .delete idO =>
    if !configured then (500, store, 0)
    else if !truthyStr idO then (400, store, 0)
    else (200, store.filter (fun p => !(p.id == idO.getD [])), 1)
  | .other =>
    if !configured then (500, store, 0)
    else (405, store, 0)

/-- A row of the `farms` table seen by the client-side helpers. -/
structure FarmRec where
  id : Str
  owner_id : Option Str
  name : Str
  updated_at : Option Str
deriving DecidableEq, Repr

/-- Result discriminator of the client-side farm helpers. -/
inductive FarmRes where
  | ok : FarmRes
  | errUuid : FarmRes
  | errFetch : FarmRes
  | errDenied : FarmRes
deriving DecidableEq, Repr

/-- Denial test shared by `updateFarm` and `deleteFarm`: the stored
`owner_id` is truthy and differs (JavaScript strict inequality, where a
string never equals null) from the current user id. -/
def farmDeny (stored : Option Str) (userId : Option Str) : Bool :=
  match stored with
  | none => false
  | some o =>
    if o.isEmpty then false
    else
      match userId with
      | none => true
      | some u => !(o == u)

/-- The client-side `api.updateFarm` helper: UUID validation, ownership
fetch with `.single()` (which errors unless exactly one row is
returned, and whose transient failure is modelled by `fetchOk`), denial
on owner mismatch, otherwise an update that overwrites `updated_at`.
The update payload is abstracted to a new name. -/
def updateFarm (farmId : Str) (userId : Option Str) (newName : Str)
    (now : Str) (fetchOk : Bool) (store : List FarmRec) :
    FarmRes × List FarmRec :=
  if !isValidUUID farmId then (.errUuid, store)
  else if !fetchOk then (.errFetch, store)
  else
    match store.filter (fun f => f.id == farmId) with
    | [f] =>
      if farmDeny f.owner_id userId then (.errDenied, store)
      else (.ok,
            store.map (fun g =>
              if g.id == farmId then
                { g with name := newName, updated_at := some now }
              else g))
    | _ => (.errFetch, store)

/-- The client-side `api.deleteFarm` helper, with the same UUID and
ownership gate as `updateFarm`, then a delete of the matching rows. -/
def deleteFarm (farmId : Str) (userId : Option Str) (fetchOk : Bool)
    (store : List FarmRec) : FarmRes × List FarmRec :=
  if !isValidUUID farmId then (.errUuid, store)
  else if !fetchOk then (.errFetch, store)
  else
    match store.filter (fun f => f.id == farmId) with
    | [f] =>
      if farmDeny f.owner_id userId then (.errDenied, store)
      else (.ok, store.filter (fun g => !(g.id == farmId)))
    | _ => (.errFetch, store)

/-- A produce item of the static catalog. -/
structure ProduceItem where
  id : Str
  name : Str
  season : Str
deriving DecidableEq, Repr

/-- A produce category of the static catalog. -/
structure PCategory where
  id : Str
  name : Str
  items : List ProduceItem
deriving DecidableEq, Repr

/-- The item list computed by `GET /api/produce`: a category survives
the category filter when the parameter is absent or empty or exactly
equal to the category id; items are flattened with the category name
and id attached; a truthy season parameter then keeps the items whose
season contains the parameter case-insensitively or whose season is
exactly `year-round` after lowercasing. -/
def produceItems (cats : List PCategory) (category season : Option Str) :
    List (ProduceItem × Str × Str) :=
  let base := cats.flatMap (fun cat =>
    if !truthyStr category || cat.id == category.getD [] then
      cat.items.map (fun it => (it, cat.name, cat.id))
    else [])
  match season with
  | none => base
  | some s =>
    if s.isEmpty then base
    else base.filter (fun x =>
      containsSub (lowerStr x.1.season) (lowerStr s) ||
      lowerStr x.1.season == ("year-round".toList))

/-- A farm of the static catalog used by `/api/farms` and `/api/search`. -/
structure Farm where
  name : Str
  location : Str
  specialties : List Str
deriving DecidableEq, Repr

/-- The produce half of `GET /api/search`: every item whose name or
owning category name contains the query case-insensitively. -/
def searchProduce (cats : List PCategory) (q : Str) :
    List (ProduceItem × Str × Str) :=
  cats.flatMap (fun cat =>
    (cat.items.filter (fun it =>
        ciContains it.name q || ciContains cat.name q)).map
      (fun it => (it, cat.name, cat.id)))

/-- The farm half of `GET /api/search`: every farm whose name, location
or some specialty contains the query case-insensitively. -/
def searchFarms (farms : List Farm) (q : Str) : List Farm :=
  farms.filter (fun f =>
    ciContains f.name q || ciContains f.location q ||
    f.specialties.any (fun s => ciContains s q))

/-- `GET /api/search`: an absent, empty or one-character query is
rejected with 400 and no results; otherwise status 200 with the two
filtered lists. -/
def searchHandler (cats : List PCategory) (farms : List Farm)
    (q : Option Str) : Nat × List (ProduceItem × Str × Str) × List Farm :=
  match q with
  | none => (400, [], [])
  | some qs =>
    if qs.isEmpty || qs.length < 2 then (400, [], [])
    else (200, searchProduce cats qs, searchFarms farms qs)

/-- JavaScript whitespace class `\s`, restricted to its ASCII part. -/
def isJsWs (c : Char) : Bool :=
  c == ' ' || c.toNat == 9 || c.toNat == 10 || c.toNat == 11 ||
  c.toNat == 12 || c.toNat == 13

/-- A character allowed by the class excluding whitespace and `@`. -/
def notWsAt (c : Char) : Bool := !isJsWs c && !(c == '@')

/-- Split a string at the first occurrence of `c`, or `none` when `c`
does not occur. -/
def breakAt (c : Char) : Str → Option (Str × Str)
  | [] => none
  | a :: rest =>
    if a == c then some ([], rest)
    else
      match breakAt c rest with
      | some (x, y) => some (a :: x, y)
      | none => none

/-- The email test of the source, the anchored regular expression
`[^\s@]+@[^\s@]+\.[^\s@]+`: one `@` splitting the string into a
nonempty local part and a domain, both free of whitespace and `@`, the
domain containing a dot at an interior position. -/
def emailRegexTest (s : Str) : Bool :=
  match breakAt '@' s with
  | none => false
  | some (a, b) =>
    !a.isEmpty && a.all notWsAt && !b.isEmpty && b.all notWsAt &&
      ((b.drop 1).dropLast).contains '.'

/-- A stored waitlist entry, as written by the waitlist endpoint. -/
structure WaitEntry where
  id : Str
  email : Str
  name : Str
  businessType : Str
  location : Str
  newsletterConsent : Bool
  joinedAt : Str
deriving DecidableEq, Repr

/-- Body of a waitlist submission.  `newsletterConsent` models the
result of the `Boolean(...)` coercion. -/
structure WaitBody where
  email : Option Str
  name : Option Str
  businessType : Option Str
  location : Option Str
  newsletterConsent : Bool
deriving DecidableEq, Repr

/-- The entry appended by a successful waitlist submission; `freshId`
stands for the generated id and `now` for the timestamp. -/
def mkWaitEntry (b : WaitBody) (freshId now : Str) : WaitEntry :=
  { id := freshId, email := b.email.getD [], name := b.name.getD [],
    businessType := b.businessType.getD [], location := b.location.getD [],
    newsletterConsent := b.newsletterConsent, joinedAt := now }

/-- `POST /api/waitlist`: missing email, invalid email, or an existing
entry with the same lowercased email is rejected with 400 and the file
is left untouched; otherwise the entry is appended (201), or 500 on a
failed save with the durable file untouched. -/
def postWaitlist (b : WaitBody) (freshId now : Str) (saveOk : Bool)
    (store : List WaitEntry) : Nat × List WaitEntry :=
  if !truthyStr b.email then (400, store)
  else if !emailRegexTest (b.email.getD []) then (400, store)
  else if store.any (fun en => lowerStr en.email == lowerStr (b.email.getD []))
    then (400, store)
  else if saveOk then (201, store ++ [mkWaitEntry b freshId now])
  else (500, store)

/-- A stored row of an export source file: an association list from
field names to already-stringified values, as `loadJSON` produces. -/
abbrev Row := List (Str × Str)

/-- Property lookup `r[h]` on a stored row. -/
def getField (r : Row) (h : Str) : Option Str :=
  (r.find? (fun p => p.1 == h)).map (fun p => p.2)

/-- Double every double-quote character, the `replace(/"/g, '""')` of
the CSV escape. -/
def doubleQuotes : Str → Str
  | [] => []
  | c :: t =>
    if c == '"' then '"' :: '"' :: doubleQuotes t
    else c :: doubleQuotes t

/-- The CSV `escape` of the admin export: undefined and null become the
empty field, quotes are doubled, and the field is wrapped in double
quotes exactly when it contains a comma or a newline. -/
def csvEscape : Option Str → Str
  | none => []
  | some val =>
    let str := doubleQuotes val
    if str.contains ',' || str.contains '\n' then '"' :: (str ++ ['"'])
    else str

/-- Join fields with commas. -/
def joinComma (fields : List Str) : Str := List.intercalate [','] fields

/-- The header list of the waitlist export. -/
def waitlistHeaders : List Str :=
  ["id", "name", "email", "businessType", "location", "phone", "notes",
   "newsletterConsent", "position", "createdAt"].map (fun s => s.toList)

/-- The lines of the admin CSV export: the joined header row followed
by one joined row per stored entry. -/
def exportLines (headers : List Str) (rows : List Row) : List Str :=
  joinComma headers ::
    rows.map (fun r => joinComma (headers.map (fun h => csvEscape (getField r h))))

/-- The CSV body sent by the export endpoint: the lines joined by
newlines. -/
def exportCsv (headers : List Str) (rows : List Row) : Str :=
  List.intercalate ['\n'] (exportLines headers rows)

/-! ### Concrete values used by witnesses and counterexamples -/

/-- A syntactically valid UUID v4 used by concrete instances. -/
def demoUuid : Str := ("1b4e28ba-2fa1-4d3b-a3f5-ef19b5a7633b".toList)

/-- A stored blog post owned by user `A`. -/
def demoPost : BlogPost :=
  { id := demoUuid, title := ("T".toList), category := ("News".toList),
    content := ("Body".toList), read_time := none,
    owner_id := some ("A".toList), created_at := ("t0".toList),
    updated_at := some ("t0".toList) }

/-- A stored farm row owned by user `A`. -/
def demoFarm : FarmRec :=
  { id := demoUuid, owner_id := some ("A".toList), name := ("Green".toList),
    updated_at := none }

/-- A produce item whose season is year-round up to case. -/
def yrItem : ProduceItem :=
  { id := ("mango".toList), name := ("Mango".toList),
    season := ("Year-Round".toList) }

/-- A fruit category holding the year-round item. -/
def fruitsCat : PCategory :=
  { id := ("fruits".toList), name := ("Fruits".toList), items := [yrItem] }

/-- A produce item of the vegetables category. -/
def vegItem : ProduceItem :=
  { id := ("tomato".toList), name := ("Tomato".toList),
    season := ("rainy".toList) }

/-- The vegetables category holding one item. -/
def vegCat : PCategory :=
  { id := ("vegetables".toList), name := ("Vegetables".toList),
    items := [vegItem] }

/-- A farm of the static catalog matching the query `ma` by name. -/
def demoCatalogFarm : Farm :=
  { name := ("Mampong Farm".toList), location := ("Ashanti".toList),
    specialties := [("Cocoa".toList)] }

/-- A first waitlist submission body. -/
def wb1 : WaitBody :=
  { email := some ("A@b.co".toList), name := none, businessType := none,
    location := none, newsletterConsent := false }

/-- A second waitlist submission body whose email differs from the first
only by case. -/
def wb2 : WaitBody :=
  { email := some ("a@B.co".toList), name := none, businessType := none,
    location := none, newsletterConsent := true }

/-- A stored export row holding one email field. -/
def demoRow : Row := [(("email".toList), ("a@b.co".toList))]

/-! ### Lemmas about the CSV escape -/

/-- Doubling quote characters neither adds nor removes character
occurrences as far as membership is concerned. -/
theorem mem_doubleQuotes (c : Char) (v : Str) :
    c ∈ doubleQuotes v ↔ c ∈ v := by
  induction v with
  | nil => simp [doubleQuotes]
  | cons a t ih =>
    by_cases h : a = '"'
    · subst h
      simp [doubleQuotes, ih]
    · have hb : (a == '"') = false := by simp [h]
      simp [doubleQuotes, hb, ih]

/-- The Boolean `contains` agrees on a string and its quote-doubled
form. -/
theorem dq_contains (v : Str) (c : Char) :
    (doubleQuotes v).contains c = v.contains c := by
  by_cases h : c ∈ v
  · have h1 : v.contains c = true := List.elem_iff.mpr h
    have h2 : (doubleQuotes v).contains c = true :=
      List.elem_iff.mpr ((mem_doubleQuotes c v).mpr h)
    rw [h1, h2]
  · have h1 : v.contains c = false := by
      cases hv : v.contains c with
      | false => rfl
      | true => exact absurd (List.elem_iff.mp hv) h
    have h2 : (doubleQuotes v).contains c = false := by
      cases hv : (doubleQuotes v).contains c with
      | false => rfl
      | true => exact absurd ((mem_doubleQuotes c v).mp (List.elem_iff.mp hv)) h
    rw [h1, h2]

/-- Doubling quotes exactly doubles the number of quote characters. -/
theorem dq_count (v : Str) :
    (doubleQuotes v).count '"' = 2 * v.count '"' := by
  induction v with
  | nil => simp [doubleQuotes]
  | cons a t ih =>
    by_cases h : a = '"'
    · subst h
      simp [doubleQuotes, List.count_cons, ih]
      omega
    · have hb : (a == '"') = false := by simp [h]
      simp [doubleQuotes, List.count_cons, hb, ih]

/-- C10: in the admin CSV escaping, every embedded double quote is
doubled, but surrounding double quotes are added only when the field
contains a comma or a newline; a field containing a double quote but
neither comma nor newline is emitted as its quote-doubled form, with
twice as many quote characters and no wrapping applied. -/
theorem csvEscape_doubles_without_wrap (v : Str)
    (hq : v.contains '"' = true)
    (hc : v.contains ',' = false) (hn : v.contains '\n' = false) :
    csvEscape (some v) = doubleQuotes v ∧
    (csvEscape (some v)).count '"' = 2 * v.count '"' ∧
    (csvEscape (some v)).contains '"' = true := by
  have hm1 : ',' ∉ doubleQuotes v := by
    intro hm
    have : v.contains ',' = true :=
      List.elem_iff.mpr ((mem_doubleQuotes ',' v).mp hm)
    rw [this] at hc
    exact absurd hc (by simp)
  have hm2 : '\n' ∉ doubleQuotes v := by
    intro hm
    have : v.contains '\n' = true :=
      List.elem_iff.mpr ((mem_doubleQuotes '\n' v).mp hm)
    rw [this] at hn
    exact absurd hn (by simp)
  have he : csvEscape (some v) = doubleQuotes v := by
    simp [csvEscape, hm1, hm2]
  refine ⟨he, ?_, ?_⟩
  · rw [he, dq_count]
  · rw [he, dq_contains]; exact hq

/-- Witness for C10 at the concrete field `a"b`. -/
theorem csvEscape_doubles_without_wrap_witness :
    csvEscape (some ['a', '"', 'b']) = doubleQuotes ['a', '"', 'b'] ∧
    (csvEscape (some ['a', '"', 'b'])).count '"' =
      2 * (['a', '"', 'b'] : Str).count '"' ∧
    (csvEscape (some ['a', '"', 'b'])).contains '"' = true :=
  csvEscape_doubles_without_wrap ['a', '"', 'b'] (by decide) (by decide)
    (by decide)

/-- C8: the waitlist CSV export consists of exactly one header row
followed by exactly one row per stored entry, and every field value
containing a comma or a newline is wrapped in double quotes. -/
theorem waitlistExport_shape (rows : List Row) :
    (exportLines waitlistHeaders rows).length = rows.length + 1 ∧
    (exportLines waitlistHeaders rows).head? = some (joinComma waitlistHeaders) ∧
    (∀ v : Str, (v.contains ',' = true ∨ v.contains '\n' = true) →
      csvEscape (some v) = '"' :: (doubleQuotes v ++ ['"'])) := by
  refine ⟨by simp [exportLines], by simp [exportLines], ?_⟩
  intro v hv
  rcases hv with h | h
  · have hm : ',' ∈ doubleQuotes v :=
      (mem_doubleQuotes ',' v).mpr (List.elem_iff.mp h)
    simp [csvEscape, hm]
  · have hm : '\n' ∈ doubleQuotes v :=
      (mem_doubleQuotes '\n' v).mpr (List.elem_iff.mp h)
    simp [csvEscape, hm]

/-- Witness for C8 at a one-row store and a comma-holding field. -/
theorem waitlistExport_shape_witness :
    (exportLines waitlistHeaders [demoRow]).length = [demoRow].length + 1 ∧
    csvEscape (some ['x', ',', 'y']) = '"' :: (doubleQuotes ['x', ',', 'y'] ++ ['"']) :=
  ⟨(waitlistExport_shape [demoRow]).1,
   (waitlistExport_shape [demoRow]).2.2 ['x', ',', 'y'] (Or.inl (by decide))⟩

/-! ### The waitlist duplicate check -/

/-- Any waitlist submission whose email matches a stored entry up to
lowercasing is rejected with 400 and the stored file is unchanged. -/
theorem postWaitlist_dup (b : WaitBody) (e : Str) (f n : Str) (saveOk : Bool)
    (store : List WaitEntry) (he : b.email = some e)
    (hdup : ∃ en ∈ store, lowerStr en.email = lowerStr e) :
    postWaitlist b f n saveOk store = (400, store) := by
  have hany : store.any (fun en => lowerStr en.email == lowerStr e) = true := by
    rcases hdup with ⟨en, hmem, hle⟩
    exact List.any_eq_true.mpr ⟨en, hmem, beq_iff_eq.mpr hle⟩
  by_cases h1 : truthyStr (some e) = true
  · by_cases h2 : emailRegexTest e = true
    · simp [postWaitlist, he, h1, h2, hany]
    · simp [postWaitlist, he, h1, h2]
  · simp [postWaitlist, he, h1]

/-- C7: after a waitlist submission succeeds (201), a second submission
whose email equals the first up to case is rejected with 400 and the
stored waitlist is unchanged by the second submission. -/
theorem waitlist_duplicate_rejected (b1 b2 : WaitBody) (e1 e2 f1 n1 f2 n2 : Str)
    (store : List WaitEntry)
    (he1 : b1.email = some e1) (he2 : b2.email = some e2)
    (hlow : lowerStr e2 = lowerStr e1)
    (h201 : (postWaitlist b1 f1 n1 true store).1 = 201) :
    postWaitlist b2 f2 n2 true (postWaitlist b1 f1 n1 true store).2 =
      (400, (postWaitlist b1 f1 n1 true store).2) := by
  have hstep : postWaitlist b1 f1 n1 true store =
      (201, store ++ [mkWaitEntry b1 f1 n1]) := by
    cases h1 : truthyStr b1.email with
    | false => simp [postWaitlist, h1] at h201
    | true =>
      cases h2 : emailRegexTest (b1.email.getD []) with
      | false => simp [postWaitlist, h1, h2] at h201
      | true =>
        cases h3 : store.any
            (fun en => lowerStr en.email == lowerStr (b1.email.getD [])) with
        | true => simp [postWaitlist, h1, h2, h3] at h201
        | false => simp [postWaitlist, h1, h2, h3]
  rw [hstep]
  refine postWaitlist_dup b2 e2 f2 n2 true (store ++ [mkWaitEntry b1 f1 n1])
    he2 ⟨mkWaitEntry b1 f1 n1, ?_, ?_⟩
  · simp
  · simp [mkWaitEntry, he1, hlow]

/-- Witness for C7 at the concrete emails `A@b.co` and `a@B.co`. -/
theorem waitlist_duplicate_rejected_witness :
    postWaitlist wb2 ("w2".toList) ("t2".toList) true
        ((postWaitlist wb1 ("w1".toList) ("t1".toList) true []).2) =
      (400, (postWaitlist wb1 ("w1".toList) ("t1".toList) true []).2) :=
  waitlist_duplicate_rejected wb1 wb2 ("A@b.co".toList) ("a@B.co".toList)
    ("w1".toList) ("t1".toList) ("w2".toList) ("t2".toList) []
    rfl rfl (by decide) (by decide)

/-! ### The produce listing and the search endpoint -/

/-- Feeding a season parameter first builds the category-filtered list
and then, unless the parameter is empty, filters it by the season
predicate. -/
theorem produceItems_some (cats : List PCategory) (category : Option Str)
    (s : Str) :
    produceItems cats category (some s) =
      if s.isEmpty then produceItems cats category none
      else (produceItems cats category none).filter (fun x =>
        containsSub (lowerStr x.1.season) (lowerStr s) ||
        lowerStr x.1.season == ("year-round".toList)) := rfl

/-- Membership in the category-filtered flattened list. -/
theorem mem_produceBase (cats : List PCategory) (category : Option Str)
    (it : ProduceItem) (cn ci : Str) :
    ((it, cn, ci) ∈ produceItems cats category none ↔
      ∃ cat, cat ∈ cats ∧
        (!truthyStr category || cat.id == category.getD []) = true ∧
        it ∈ cat.items ∧ cn = cat.name ∧ ci = cat.id) := by
  unfold produceItems
  simp only [List.mem_flatMap]
  constructor
  · rintro ⟨cat, hcat, hx⟩
    by_cases hcond : (!truthyStr category || cat.id == category.getD []) = true
    · rw [if_pos hcond] at hx
      obtain ⟨jt, hjt, heq⟩ := List.mem_map.mp hx
      simp only [Prod.mk.injEq] at heq
      obtain ⟨h1, h2, h3⟩ := heq
      subst h1
      exact ⟨cat, hcat, hcond, hjt, h2.symm, h3.symm⟩
    · rw [if_neg hcond] at hx
      exact absurd hx (List.not_mem_nil _)
  · rintro ⟨cat, hcat, hcond, hit, rfl, rfl⟩
    exact ⟨cat, hcat, by
      rw [if_pos hcond]
      exact List.mem_map.mpr ⟨it, hit, rfl⟩⟩

/-- C9 (amended): on a produce request carrying a season parameter and
no category parameter, every item whose season is `year-round` up to
case is included in the result, whatever the season parameter says. -/
theorem yearRound_included (cats : List PCategory) (cat : PCategory)
    (it : ProduceItem) (s : Str) (hc : cat ∈ cats) (hi : it ∈ cat.items)
    (hs : lowerStr it.season = ("year-round".toList)) :
    (it, cat.name, cat.id) ∈ produceItems cats none (some s) := by
  have hbase : (it, cat.name, cat.id) ∈ produceItems cats none none :=
    (mem_produceBase cats none it cat.name cat.id).mpr
      ⟨cat, hc, by simp [truthyStr], hi, rfl, rfl⟩
  rw [produceItems_some]
  by_cases hse : s.isEmpty = true
  · rw [if_pos hse]
    exact hbase
  · rw [if_neg hse]
    refine List.mem_filter.mpr ⟨hbase, ?_⟩
    simp only [Bool.or_eq_true, beq_iff_eq]
    exact Or.inr hs

/-- Witness for C9 (amended) at the year-round mango and the season
parameter `dry`. -/
theorem yearRound_included_witness :
    (yrItem, fruitsCat.name, fruitsCat.id) ∈
      produceItems [fruitsCat] none (some ("dry".toList)) :=
  yearRound_included [fruitsCat] fruitsCat yrItem ("dry".toList)
    (by simp) (by simp [fruitsCat]) (by decide)

/-- Counterexample to C9 as stated: a request carrying a season
parameter may also carry a category parameter, and then a year-round
item of another category is not included in the result. -/
theorem yearRound_not_included_with_category :
    lowerStr yrItem.season = ("year-round".toList) ∧
    yrItem ∈ fruitsCat.items ∧
    produceItems [fruitsCat] (some ("vegetables".toList))
      (some ("dry".toList)) = [] := by
  exact ⟨by decide, by decide, by decide⟩

/-- C5 (amended): with a nonempty category parameter and no season
parameter, an item is included in the produce result exactly when its
category id equals the parameter exactly (case-sensitive, whole
string). -/
theorem produce_category_exact (cats : List PCategory) (c : Str)
    (hc : c ≠ []) (it : ProduceItem) (cn ci : Str) :
    ((it, cn, ci) ∈ produceItems cats (some c) none ↔
      ∃ cat, cat ∈ cats ∧ cat.id = c ∧ it ∈ cat.items ∧
        cn = cat.name ∧ ci = cat.id) := by
  have htr : truthyStr (some c) = true := by
    cases c with
    | nil => exact absurd rfl hc
    | cons a t => rfl
  rw [mem_produceBase]
  constructor
  · rintro ⟨cat, hcat, hcond, hit, h1, h2⟩
    rw [htr] at hcond
    simp at hcond
    exact ⟨cat, hcat, hcond, hit, h1, h2⟩
  · rintro ⟨cat, hcat, hid, hit, h1, h2⟩
    refine ⟨cat, hcat, ?_, hit, h1, h2⟩
    simp [htr, hid]

/-- Witness for C5 (amended) at the exact category id `vegetables`. -/
theorem produce_category_exact_witness :
    (vegItem, vegCat.name, vegCat.id) ∈
      produceItems [vegCat] (some ("vegetables".toList)) none :=
  (produce_category_exact [vegCat] ("vegetables".toList) (by decide) vegItem
      vegCat.name vegCat.id).mpr
    ⟨vegCat, by simp, rfl, by simp [vegCat], rfl, rfl⟩

/-- Counterexample to C5 as stated: the parameter `VEGETABLES` matches
the category id `vegetables` by case-insensitive substring, yet the
result is empty because the source compares with strict equality. -/
theorem produce_category_substring_counterexample :
    ciContains vegCat.id ("VEGETABLES".toList) = true ∧
    vegItem ∈ vegCat.items ∧
    produceItems [vegCat] (some ("VEGETABLES".toList)) none = [] := by
  exact ⟨by decide, by decide, by decide⟩

/-- Membership in the produce half of the search result. -/
theorem mem_searchProduce (cats : List PCategory) (q : Str)
    (it : ProduceItem) (cn ci : Str) :
    ((it, cn, ci) ∈ searchProduce cats q ↔
      ∃ cat, cat ∈ cats ∧ it ∈ cat.items ∧ cn = cat.name ∧ ci = cat.id ∧
        (ciContains it.name q || ciContains cat.name q) = true) := by
  unfold searchProduce
  simp only [List.mem_flatMap]
  constructor
  · rintro ⟨cat, hcat, hx⟩
    obtain ⟨jt, hjt, heq⟩ := List.mem_map.mp hx
    obtain ⟨hjm, hcond⟩ := List.mem_filter.mp hjt
    simp only [Prod.mk.injEq] at heq
    obtain ⟨h1, h2, h3⟩ := heq
    subst h1
    exact ⟨cat, hcat, hjm, h2.symm, h3.symm, hcond⟩
  · rintro ⟨cat, hcat, hit, rfl, rfl, hcond⟩
    exact ⟨cat, hcat,
      List.mem_map.mpr ⟨it, List.mem_filter.mpr ⟨hit, hcond⟩, rfl⟩⟩

/-- C6: searching with an absent or short query yields 400 with no
results; with a query of length at least two, the status is 200, the
produce results are exactly the items whose name or owning category
name contains the query case-insensitively, and the farm results are
exactly the farms whose name, location or some specialty contains it
case-insensitively. -/
theorem search_spec (cats : List PCategory) (farms : List Farm) (qs : Str) :
    searchHandler cats farms none = (400, [], []) ∧
    (qs.length < 2 → searchHandler cats farms (some qs) = (400, [], [])) ∧
    (2 ≤ qs.length →
      (searchHandler cats farms (some qs)).1 = 200 ∧
      (∀ it cn ci, ((it, cn, ci) ∈ (searchHandler cats farms (some qs)).2.1 ↔
        ∃ cat, cat ∈ cats ∧ it ∈ cat.items ∧ cn = cat.name ∧ ci = cat.id ∧
          (ciContains it.name qs || ciContains cat.name qs) = true)) ∧
      (∀ f, (f ∈ (searchHandler cats farms (some qs)).2.2 ↔
        f ∈ farms ∧ (ciContains f.name qs || ciContains f.location qs ||
          f.specialties.any (fun sp => ciContains sp qs)) = true))) := by
  refine ⟨rfl, ?_, ?_⟩
  · intro h
    simp [searchHandler, h]
  · intro h
    have hcond : (qs.isEmpty || decide (qs.length < 2)) = false := by
      cases qs with
      | nil => simp at h
      | cons a t =>
        simp only [List.isEmpty_cons, Bool.false_or,
          decide_eq_false_iff_not]
        omega
    have hred : searchHandler cats farms (some qs) =
        (200, searchProduce cats qs, searchFarms farms qs) := by
      simp [searchHandler, hcond]
    rw [hred]
    refine ⟨rfl, ?_, ?_⟩
    · intro it cn ci
      exact mem_searchProduce cats qs it cn ci
    · intro f
      exact ⟨fun hf => List.mem_filter.mp hf, fun hf => List.mem_filter.mpr hf⟩

/-- Witness for C6 at the query `ma`, one category and one farm. -/
theorem search_spec_witness :
    (searchHandler [fruitsCat] [demoCatalogFarm] (some ("ma".toList))).1 = 200 ∧
    (yrItem, fruitsCat.name, fruitsCat.id) ∈
      (searchHandler [fruitsCat] [demoCatalogFarm] (some ("ma".toList))).2.1 ∧
    demoCatalogFarm ∈
      (searchHandler [fruitsCat] [demoCatalogFarm] (some ("ma".toList))).2.2 := by
  have h := search_spec [fruitsCat] [demoCatalogFarm] ("ma".toList)
  have h4 := h.2.2 (by decide)
  refine ⟨h4.1, ?_, ?_⟩
  · exact (h4.2.1 yrItem fruitsCat.name fruitsCat.id).mpr
      ⟨fruitsCat, by simp, by simp [fruitsCat], rfl, rfl, by decide⟩
  · exact (h4.2.2 demoCatalogFarm).mpr ⟨by simp, by decide⟩

/-! ### The ownership-gated blog mutation path -/

/-- A string passing the UUID shape test is nonempty. -/
theorem uuid_ne_nil {s : Str} (h : isValidUUID s = true) : s ≠ [] := by
  intro hnil
  subst hnil
  exact absurd h (by decide)

/-- A nonempty optional string is truthy. -/
theorem truthy_of_ne_nil {s : Str} (h : s ≠ []) :
    truthyStr (some s) = true := by
  cases s with
  | nil => exact absurd rfl h
  | cons a t => rfl

/-- C1: against a stored post owned by `A`, a PUT carrying owner `B`
distinct from `A` is answered 403 with the table unchanged, after the
single ownership-lookup access; a PUT carrying owner `A`, or no owner
at all, is answered 200, rewrites exactly the rows with the requested
id through the update payload, and every such row ends with
`updated_at` overwritten by the request timestamp. -/
theorem put_ownership (store : List BlogPost) (p : BlogPost) (a b now : Str)
    (t c ct : Option Str) (rt : Option (Option Str))
    (hfil : store.filter (fun q => q.id == p.id) = [p])
    (huuid : isValidUUID p.id = true)
    (hown : p.owner_id = some a) (ha : a ≠ []) (hb : b ≠ []) (hba : b ≠ a) :
    putStep { id := some p.id, title := t, category := c, content := ct,
              read_time := rt, owner_id := some b } true now store
      = (403, store, 1) ∧
    (∀ ow, ow = some a ∨ ow = none →
      (putStep { id := some p.id, title := t, category := c, content := ct,
                 read_time := rt, owner_id := ow } true now store).1 = 200 ∧
      (putStep { id := some p.id, title := t, category := c, content := ct,
                 read_time := rt, owner_id := ow } true now store).2.1
        = store.map (fun q => if q.id == p.id then
            applyUpdate q { id := some p.id, title := t, category := c,
                            content := ct, read_time := rt,
                            owner_id := ow } now
          else q) ∧
      (∀ q, q ∈ (putStep { id := some p.id, title := t, category := c,
                           content := ct, read_time := rt,
                           owner_id := ow } true now store).2.1 →
        q.id = p.id → q.updated_at = some now)) := by
  have hid : truthyStr (some p.id) = true := truthy_of_ne_nil (uuid_ne_nil huuid)
  have hae : a.isEmpty = false := by
    cases a with
    | nil => exact absurd rfl ha
    | cons x xs => rfl
  constructor
  · have htb : truthyStr (some b) = true := truthy_of_ne_nil hb
    have hne : (a == b) = false := by
      simp only [beq_eq_false_iff_ne, ne_eq]
      exact fun hab => hba hab.symm
    have hab : ¬ a = b := fun h => hba h.symm
    simp [putStep, hid, huuid, htb, hfil, hown, hae, hne, hab]
  · intro ow how
    have key : putStep ⟨some p.id, t, c, ct, rt, ow⟩ true now store
        = (200, store.map (fun q => if q.id == p.id then
            applyUpdate q ⟨some p.id, t, c, ct, rt, ow⟩ now
          else q),
          (if truthyStr ow then 1 else 0) + 1) := by
      rcases how with rfl | rfl
      · have hta : truthyStr (some a) = true := truthy_of_ne_nil ha
        simp [putStep, hid, huuid, hta, hfil, hown]
      · simp [putStep, hid, huuid, truthyStr, uuid_ne_nil huuid]
    refine ⟨by rw [key], by rw [key], ?_⟩
    intro q hq hqid
    rw [key] at hq
    obtain ⟨q0, hq0, heq⟩ := List.mem_map.mp hq
    by_cases h0 : (q0.id == p.id) = true
    · rw [if_pos h0] at heq
      rw [← heq]
      simp [applyUpdate]
    · rw [if_neg h0] at heq
      subst heq
      exact absurd (beq_iff_eq.mpr hqid) h0

/-- Witness for C1: the concrete PUT carrying owner `B` against the
store holding the post owned by `A` is answered 403 unchanged. -/
theorem put_ownership_witness :
    putStep ⟨some demoUuid, none, none, none, none, some ("B".toList)⟩
      true ("t2".toList) [demoPost] = (403, [demoPost], 1) :=
  (put_ownership [demoPost] demoPost ("A".toList) ("B".toList)
      ("t2".toList) none none none none (by decide) (by decide) rfl
      (by decide) (by decide) (by decide)).1

/-- C2: when the ownership lookup fails, the admin PUT and DELETE
branches silently skip the check and perform the mutation as if the
record were unowned, while the client-side updateFarm and deleteFarm
helpers return the fetch error and leave the store unchanged. -/
theorem ownership_fetch_failure (b : PutBody) (now : Str)
    (store : List BlogPost) (idO ow : Option Str) (fid : Str)
    (uid : Option Str) (nm nw : Str) (fstore : List FarmRec) :
    (truthyStr b.id = true → isValidUUID (b.id.getD []) = true →
      (putStep b false now store).1 = 200 ∧
      (putStep b false now store).2.1 =
        store.map (fun p => if p.id == b.id.getD [] then
          applyUpdate p b now else p)) ∧
    (truthyStr idO = true → isValidUUID (idO.getD []) = true →
      (delStep idO ow false store).1 = 200 ∧
      (delStep idO ow false store).2.1 =
        store.filter (fun p => !(p.id == idO.getD []))) ∧
    (isValidUUID fid = true →
      updateFarm fid uid nm nw false fstore = (.errFetch, fstore)) ∧
    (isValidUUID fid = true →
      deleteFarm fid uid false fstore = (.errFetch, fstore)) := by
  refine ⟨?_, ?_, ?_, ?_⟩
  · intro h1 h2
    constructor <;> simp [putStep, h1, h2]
  · intro h1 h2
    constructor <;> simp [delStep, h1, h2]
  · intro h
    simp [updateFarm, h]
  · intro h
    simp [deleteFarm, h]

/-- Witness for C2: with the lookup failing, the admin PUT carrying the
wrong owner `B` still answers 200, while the client updateFarm returns
the fetch error with the farm store unchanged. -/
theorem ownership_fetch_failure_witness :
    (putStep ⟨some demoUuid, none, none, none, none, some ("B".toList)⟩
        false ("t2".toList) [demoPost]).1 = 200 ∧
    updateFarm demoUuid (some ("B".toList)) ("N".toList) ("t2".toList)
        false [demoFarm] = (.errFetch, [demoFarm]) :=
  ⟨((ownership_fetch_failure
      ⟨some demoUuid, none, none, none, none, some ("B".toList)⟩
      ("t2".toList) [demoPost] none none demoUuid (some ("B".toList))
      ("N".toList) ("t2".toList) [demoFarm]).1 (by decide) (by decide)).1,
   (ownership_fetch_failure
      ⟨some demoUuid, none, none, none, none, some ("B".toList)⟩
      ("t2".toList) [demoPost] none none demoUuid (some ("B".toList))
      ("N".toList) ("t2".toList) [demoFarm]).2.2.1 (by decide)⟩

/-- C3 (amended): in the ownership-tracking admin handler, every
mutating request whose bearer token fails verification is rejected 401
before any storage access, and GET ignores the Authorization header;
the legacy blog-post function performs no token check at all. -/
theorem admin_auth_gate (k a : Option Str) (ck : Bool) (fid now : Str)
    (req : AdminReq) (store : List BlogPost)
    (hm : isMutating req = true) (hauth : verifyAdminAuth k a = false) :
    blogAdminHandler true k a ck fid now req store = (401, store, 0) ∧
    (∀ qid a1 a2, blogAdminHandler true k a1 ck fid now (.get qid) store =
        blogAdminHandler true k a2 ck fid now (.get qid) store) := by
  constructor
  · cases req with
    | options => simp [isMutating] at hm
    | post t c ct rt ow => simp [blogAdminHandler, hauth]
    | put b => simp [blogAdminHandler, hauth]
    | delete i ow => simp [blogAdminHandler, hauth]
    | get q => simp [isMutating] at hm
    | other => simp [isMutating] at hm
  · intro qid a1 a2
    rfl

/-- Witness for C3 (amended): a DELETE without Authorization header is
rejected 401 with no storage access. -/
theorem admin_auth_gate_witness :
    blogAdminHandler true (some ("secret".toList)) none true ("f".toList)
      ("t".toList) (.delete (some demoUuid) none) [demoPost]
      = (401, [demoPost], 0) :=
  (admin_auth_gate (some ("secret".toList)) none true ("f".toList)
      ("t".toList) (.delete (some demoUuid) none) [demoPost]
      (by decide) (by decide)).1

/-- Counterexample to C3 as stated: the legacy blog-post function cited
by the claim accepts a POST carrying no Authorization header at all,
answers 200 rather than 401, and performs a storage access. -/
theorem legacy_no_auth_counterexample :
    (blogPostLegacy true ("id1".toList) ("t0".toList)
        (.post (some ("T".toList)) (some ("News".toList))
          (some ("Body".toList)) none) []).1 = 200 ∧
    (blogPostLegacy true ("id1".toList) ("t0".toList)
        (.post (some ("T".toList)) (some ("News".toList))
          (some ("Body".toList)) none) []).2.2 = 1 := by
  exact ⟨by decide, by decide⟩

/-- C4 (amended): for every nonempty id failing the UUID shape test, an
admin GET carrying the id, or an authorized PUT or DELETE carrying it,
answers 400 with no storage access. -/
theorem uuid_gate (k a : Option Str) (ck : Bool) (fid now : Str)
    (store : List BlogPost) (idStr : Str) (t c ct : Option Str)
    (rt : Option (Option Str)) (ow : Option Str)
    (hne : idStr ≠ []) (hbad : isValidUUID idStr = false)
    (hauth : verifyAdminAuth k a = true) :
    blogAdminHandler true k a ck fid now (.get (some idStr)) store
      = (400, store, 0) ∧
    blogAdminHandler true k a ck fid now
      (.put ⟨some idStr, t, c, ct, rt, ow⟩) store = (400, store, 0) ∧
    blogAdminHandler true k a ck fid now (.delete (some idStr) ow) store
      = (400, store, 0) := by
  have htr : truthyStr (some idStr) = true := truthy_of_ne_nil hne
  refine ⟨?_, ?_, ?_⟩
  · simp [blogAdminHandler, getStep, htr, hbad]
  · simp [blogAdminHandler, hauth, putStep, htr, hbad]
  · simp [blogAdminHandler, hauth, delStep, htr, hbad]

/-- Witness for C4 (amended) at the malformed id `abc`. -/
theorem uuid_gate_witness :
    blogAdminHandler true (some ("secret".toList))
      (some ("Bearer secret".toList)) true ("f".toList) ("t".toList)
      (.get (some ("abc".toList))) [] = (400, [], 0) :=
  (uuid_gate (some ("secret".toList)) (some ("Bearer secret".toList)) true
      ("f".toList) ("t".toList) [] ("abc".toList) none none none none none
      (by decide) (by decide) (by decide)).1

/-- Counterexample to C4 as stated: the empty id does not match the
UUID shape, yet a GET carrying `?id=` is treated as carrying no id and
answers 200 after one storage access. -/
theorem empty_id_get_counterexample :
    isValidUUID [] = false ∧
    blogAdminHandler true (some ("secret".toList)) none true ("f".toList)
      ("t".toList) (.get (some [])) [] = (200, [], 1) := by
  exact ⟨by decide, by decide⟩
